import Mathlib

/-!
Verification of `captum/attr/_utils/common.py`: input/baseline formatting,
shape validation, output-mode inference, integration aggregation, and
custom-function dispatch for attribution algorithms.

Tensors are embedded as row-major flat data together with a shape list.
Python `assert` failures and `raise` statements (and `IndexError`s from
indexing an empty `shape` tuple) are embedded as `Except.error`.
-/

/-- A torch tensor: a shape and row-major flat data (values as rationals). -/
structure PTensor where
  shape : List Nat
  data : List ℚ
deriving DecidableEq

/-- Number of elements of a tensor, computed from the shape as in torch. -/
def PTensor.numel (t : PTensor) : Nat := t.shape.prod

/-- One element of a baselines tuple: a Python scalar (int/float) or a tensor. -/
inductive Baseline where
  | scalar : ℚ → Baseline
  | tensor : PTensor → Baseline
deriving DecidableEq

/-- The result of `torch.full_like(input, v)`: a tensor of the input's shape
filled with the value `v`. -/
def full_like (input : PTensor) (v : ℚ) : PTensor :=
  { shape := input.shape, data := List.replicate input.numel v }

/-- Lines 335-340, `_zeros`: a tuple of the scalar `0`, one per input. -/
def _zeros (inputs : List PTensor) : List Baseline :=
  inputs.map fun _ => Baseline.scalar 0

/-- A baselines argument before formatting: Python `None`, a bare
tensor-or-scalar, or a tuple of tensors-or-scalars. -/
def BaselinesArg : Type := Option (Baseline ⊕ List Baseline)

/-- Lines 92-109, `_format_baseline`: `None` becomes `_zeros inputs`; a
non-tuple becomes a one-element tuple; a tuple is returned as is.  The
`isinstance` assertion loop over the elements is vacuous here because the
embedding is typed: every element is already a tensor or a number. -/
def _format_baseline (baselines : BaselinesArg) (inputs : List PTensor) :
    List Baseline :=
  match baselines with
  | none => _zeros inputs
  | some (Sum.inl b) => [b]
  | some (Sum.inr bs) => bs

/-- Lines 343-351, `_tensorize_single_baseline`: a scalar baseline is
materialized with `torch.full_like`; a tensor baseline whose batch dimension
is `1` and strictly smaller than the input's is repeated along the batch axis
with `torch.cat`; any other tensor baseline is returned unchanged.  Reading
`shape[0]` of a 0-dimensional tensor raises an `IndexError` (the input's
shape is read first, as in the Python conjunction). -/
def _tensorize_single_baseline (baseline : Baseline) (input : PTensor) :
    Except String PTensor :=
  match baseline with
  | Baseline.scalar v => Except.ok (full_like input v)
  | Baseline.tensor b =>
    match input.shape, b.shape with
    | [], _ => Except.error "IndexError: tuple index out of range"
    | _ :: _, [] => Except.error "IndexError: tuple index out of range"
    | i0 :: _, b0 :: btl =>
      if b0 < i0 ∧ b0 = 1 then
        Except.ok { shape := i0 * b0 :: btl,
                    data := (List.replicate i0 b.data).flatten }
      else Except.ok b

/-- Sequencing of `_tensorize_single_baseline` over the zipped pairs, as the
`tuple(... for baseline, input in zip(baselines, inputs))` comprehension. -/
def tensorizePairs : List (Baseline × PTensor) → Except String (List PTensor)
  | [] => Except.ok []
  | (b, i) :: rest =>
    match _tensorize_single_baseline b i with
    | Except.error e => Except.error e
    | Except.ok t =>
      match tensorizePairs rest with
      | Except.error e => Except.error e
      | Except.ok ts => Except.ok (t :: ts)

/-- Lines 343-362, `_tensorize_baseline`: materialize every baseline against
its corresponding input. -/
def _tensorize_baseline (inputs : List PTensor) (baselines : List Baseline) :
    Except String (List PTensor) :=
  tensorizePairs (baselines.zip inputs)

/-- Lines 210-223, `_format_attributions`: under `is_inputs_tuple` the tuple
is returned unchanged; otherwise the tuple must have length exactly one and
its sole element is returned as a bare tensor. -/
def _format_attributions (is_inputs_tuple : Bool)
    (attributions : List PTensor) : Except String (PTensor ⊕ List PTensor) :=
  if is_inputs_tuple then Except.ok (Sum.inr attributions)
  else
    match attributions with
    | [a] => Except.ok (Sum.inl a)
    | _ =>
      Except.error
        "The input is a single tensor however the attributions are not. "

/- ### Claim C5: the Result Finalizer round-trip -/

/-- C5: finalizing a length-1 AttributionSet with `is_inputs_tuple = false`
yields the sole element as a bare tensor; with `is_inputs_tuple = true` the
tuple is returned unchanged; with `is_inputs_tuple = false` and length ≠ 1 a
fatal failure is raised. -/
theorem format_attributions_roundtrip :
    (∀ a : PTensor, _format_attributions false [a] = Except.ok (Sum.inl a)) ∧
    (∀ attrs : List PTensor,
      _format_attributions true attrs = Except.ok (Sum.inr attrs)) ∧
    (∀ attrs : List PTensor, attrs.length ≠ 1 →
      ∃ msg, _format_attributions false attrs = Except.error msg) := by
  refine ⟨fun a => rfl, fun attrs => rfl, fun attrs h => ?_⟩
  match attrs with
  | [] => exact ⟨_, rfl⟩
  | [a] => simp at h
  | a :: b :: rest => exact ⟨_, rfl⟩

/-- Witness for C5 at concrete inputs: the empty AttributionSet under
`is_inputs_tuple = false` raises. -/
theorem format_attributions_roundtrip_witness :
    ∃ msg, _format_attributions false ([] : List PTensor) = Except.error msg :=
  format_attributions_roundtrip.2.2 [] (by decide)

/- ### Claim C6: absent baseline materializes to zero tensors -/

/-- C6: formatting an absent baseline yields a tuple of scalar zeros of the
inputs' length, and materializing it produces, at each position, a zero-filled
tensor of exactly that input's shape. -/
theorem zeros_baseline_roundtrip (inputs : List PTensor) :
    (_format_baseline none inputs).length = inputs.length ∧
    _format_baseline none inputs = inputs.map (fun _ => Baseline.scalar 0) ∧
    _tensorize_baseline inputs (_format_baseline none inputs) =
      Except.ok (inputs.map fun i => full_like i 0) ∧
    (inputs.map fun i => (full_like i 0).shape) = inputs.map PTensor.shape ∧
    (inputs.map fun i => (full_like i 0).data) =
      inputs.map fun i => List.replicate i.numel 0 := by
  refine ⟨by simp [_format_baseline, _zeros], rfl, ?_, rfl, rfl⟩
  show _tensorize_baseline inputs (_zeros inputs) = _
  induction inputs with
  | nil => rfl
  | cons i rest ih =>
    simp only [_zeros, List.map_cons] at ih ⊢
    simp only [_tensorize_baseline, List.zip_cons_cons, tensorizePairs,
      _tensorize_single_baseline] at ih ⊢
    simp only [List.zip] at ih
    rw [ih]

/- ### Claim C9: length of the formatted baselines tuple -/

/-- C9 counterexample: with two inputs and a bare scalar baseline,
`_format_baseline` returns a tuple of length 1, not of the inputs' length 2,
so the output is not always aligned 1:1 with the InputSet. -/
theorem format_baseline_alignment_counterexample :
    (_format_baseline (some (Sum.inl (Baseline.scalar 5)))
        [⟨[2], [1, 2]⟩, ⟨[2], [3, 4]⟩]).length = 1 ∧
    ([(⟨[2], [1, 2]⟩ : PTensor), ⟨[2], [3, 4]⟩]).length = 2 ∧ (1 : Nat) ≠ 2 := by
  refine ⟨rfl, rfl, by decide⟩

/-- C9 amended: the formatted output is a tuple whose length equals the
InputSet's length when the baseline is absent; a bare (non-tuple) baseline
always yields a length-1 tuple regardless of the InputSet's length; a tuple
baseline is returned unchanged, keeping its own length. -/
theorem format_baseline_lengths (inputs : List PTensor) :
    (_format_baseline none inputs).length = inputs.length ∧
    (∀ b : Baseline,
      (_format_baseline (some (Sum.inl b)) inputs).length = 1) ∧
    (∀ bs : List Baseline,
      _format_baseline (some (Sum.inr bs)) inputs = bs) := by
  refine ⟨by simp [_format_baseline, _zeros], fun b => rfl, fun bs => rfl⟩

/- ### Claim C10: totality of baseline tensorization -/

/-- C10 counterexample: a 0-dimensional tensor baseline makes
`_tensorize_baseline` raise an index error instead of returning the baseline
unchanged, so the function is not total on tensor baselines. -/
theorem tensorize_baseline_total_counterexample :
    _tensorize_baseline [⟨[2], [1, 2]⟩] [Baseline.tensor ⟨[], [5]⟩] =
      Except.error "IndexError: tuple index out of range" ∧
    _tensorize_baseline [⟨[2], [1, 2]⟩] [Baseline.tensor ⟨[], [5]⟩] ≠
      Except.ok [(⟨[], [5]⟩ : PTensor)] := by
  refine ⟨rfl, fun h => ?_⟩
  rw [show _tensorize_baseline [⟨[2], [1, 2]⟩] [Baseline.tensor ⟨[], [5]⟩] =
      Except.error "IndexError: tuple index out of range" from rfl] at h
  exact Except.noConfusion h

/-- C10 amended: on tensor baselines of positive dimension (against inputs of
positive dimension) `_tensorize_single_baseline` never fails: it returns the
baseline repeated along the batch axis to the input's batch size exactly when
the baseline's batch dimension is 1 and strictly smaller than the input's,
and the baseline unchanged in every other case; when the input or the
baseline is 0-dimensional it raises an index error instead. -/
theorem tensorize_single_baseline_cases (b input : PTensor) :
    (input.shape = [] ∨ b.shape = [] →
      _tensorize_single_baseline (Baseline.tensor b) input =
        Except.error "IndexError: tuple index out of range") ∧
    (∀ i0 itl b0 btl, input.shape = i0 :: itl → b.shape = b0 :: btl →
      (b0 < i0 ∧ b0 = 1 →
        _tensorize_single_baseline (Baseline.tensor b) input =
          Except.ok ⟨i0 :: btl, (List.replicate i0 b.data).flatten⟩) ∧
      (¬(b0 < i0 ∧ b0 = 1) →
        _tensorize_single_baseline (Baseline.tensor b) input =
          Except.ok b)) := by
  constructor
  · intro h
    rcases h with h | h
    · simp only [_tensorize_single_baseline, h]
    · simp only [_tensorize_single_baseline, h]
      rcases hi : input.shape with _ | ⟨i0, itl⟩ <;>
        simp_all [_tensorize_single_baseline]
  · intro i0 itl b0 btl hi hb
    constructor
    · intro hcond
      simp only [_tensorize_single_baseline, hi, hb, if_pos hcond]
      rw [hcond.2, Nat.mul_one]
    · intro hcond
      simp only [_tensorize_single_baseline, hi, hb, if_neg hcond]

/-- Witness for C10 amended at concrete tensors: a baseline of batch
dimension 1 against an input of batch dimension 2 is repeated, and a baseline
of batch dimension 2 is returned unchanged. -/
theorem tensorize_single_baseline_cases_witness :
    (_tensorize_single_baseline (Baseline.tensor ⟨[1, 2], [7, 8]⟩)
        ⟨[2, 2], [1, 2, 3, 4]⟩ =
      Except.ok ⟨[2, 2], [7, 8, 7, 8]⟩) ∧
    (_tensorize_single_baseline (Baseline.tensor ⟨[2, 2], [5, 6, 7, 8]⟩)
        ⟨[2, 2], [1, 2, 3, 4]⟩ =
      Except.ok ⟨[2, 2], [5, 6, 7, 8]⟩) := by
  constructor
  · have h := (tensorize_single_baseline_cases ⟨[1, 2], [7, 8]⟩
      ⟨[2, 2], [1, 2, 3, 4]⟩).2 2 [2] 1 [2] rfl rfl
    have h2 := h.1 (by decide)
    rw [h2]
    rfl
  · have h := (tensorize_single_baseline_cases ⟨[2, 2], [5, 6, 7, 8]⟩
      ⟨[2, 2], [1, 2, 3, 4]⟩).2 2 [2] 2 [2] rfl rfl
    exact h.2 (by decide)

/- ### Claim C1: the per-pair shape rule of _validate_input -/

/-- Lines 48-71, the body of the `for input, baseline in zip(...)` loop of
`_validate_input`: the shape-compatibility assertion for one (input,
baseline) pair, branching on `draw_baseline_from_distrib`.  In the
non-distribution branch the Python disjunction is evaluated left to right:
scalar test, full shape equality, then `baseline.shape[0] == 1` — the last
raising an `IndexError` on a 0-dimensional baseline. -/
def validateInputPair (input : PTensor) (baseline : Baseline)
    (draw_baseline_from_distrib : Bool) : Except String Unit :=
  match baseline with
  | Baseline.scalar _ => Except.ok ()
  | Baseline.tensor b =>
    match draw_baseline_from_distrib with
    | true =>
      if input.shape.drop 1 = b.shape.drop 1 then Except.ok ()
      else
        Except.error
          "The samples in input and baseline batches must have the same shape or the baseline corresponding to the input tensor must be a scalar."
    | false =>
      if input.shape = b.shape then Except.ok ()
      else
        match b.shape with
        | [] => Except.error "IndexError: tuple index out of range"
        | b0 :: _ =>
          if b0 = 1 then Except.ok ()
          else
            Except.error
              "Baseline can be provided as a tensor for just one input and broadcasted to the batch or input and baseline must have the same shape or the baseline corresponding to each input tensor must be a scalar."

/-- The acceptance rule exactly as claim C1 states it (written from the
spec's words, for comparison with `validateInputPair`): the baseline is a
scalar, or its non-batch dimensions equal the input's and its batch
dimension is 1 or equals the input's batch dimension. -/
def validateInputPairClaimRule (input : PTensor) (baseline : Baseline) : Bool :=
  match baseline with
  | Baseline.scalar _ => true
  | Baseline.tensor b =>
    decide (b.shape.drop 1 = input.shape.drop 1) &&
      (decide (b.shape.head? = some 1) ||
        decide (b.shape.head? = input.shape.head?))

/-- C1 counterexample: input of shape (2, 3) and baseline of shape (1, 5).
The code accepts the pair, because the baseline's batch dimension is 1 and no
check of the non-batch dimensions is made in that disjunct, while the claim's
rule rejects it since the non-batch dimensions 5 and 3 differ. -/
theorem validate_input_pair_counterexample :
    validateInputPair ⟨[2, 3], [1, 2, 3, 4, 5, 6]⟩
        (Baseline.tensor ⟨[1, 5], [1, 2, 3, 4, 5]⟩) false = Except.ok () ∧
    validateInputPairClaimRule ⟨[2, 3], [1, 2, 3, 4, 5, 6]⟩
        (Baseline.tensor ⟨[1, 5], [1, 2, 3, 4, 5]⟩) = false := by
  exact ⟨rfl, by decide⟩

/-- C1 amended: outside distribution-draw mode the pair is accepted iff the
baseline is a scalar, or its full shape equals the input's shape, or its
batch dimension is exactly 1 — the non-batch dimensions are not checked in
the broadcast disjunct; any other tensor baseline fails (a 0-dimensional
baseline with a shape differing from the input's fails with an index error
rather than an assertion). -/
theorem validate_input_pair_amended (input b : PTensor) (v : ℚ) :
    validateInputPair input (Baseline.scalar v) false = Except.ok () ∧
    (validateInputPair input (Baseline.tensor b) false = Except.ok () ↔
      b.shape = input.shape ∨ b.shape.head? = some 1) := by
  refine ⟨rfl, ?_⟩
  simp only [validateInputPair]
  by_cases hsh : input.shape = b.shape
  · simp [hsh]
  · rw [if_neg hsh]
    rcases hb : b.shape with _ | ⟨b0, btl⟩
    · rw [hb] at hsh
      show (Except.error "IndexError: tuple index out of range" :
          Except String Unit) = Except.ok () ↔ _
      simp only [List.head?_nil]
      constructor
      · intro h; exact absurd h (by simp)
      · intro h
        rcases h with h | h
        · exact absurd h.symm hsh
        · exact absurd h (by simp)
    · rw [hb] at hsh
      show (if b0 = 1 then (Except.ok () : Except String Unit)
          else Except.error
            "Baseline can be provided as a tensor for just one input and broadcasted to the batch or input and baseline must have the same shape or the baseline corresponding to each input tensor must be a scalar.") =
          Except.ok () ↔ _
      by_cases h1 : b0 = 1
      · subst h1
        simp only [if_pos rfl, List.head?_cons]
        simp
      · rw [if_neg h1]
        simp only [List.head?_cons, Option.some.injEq]
        constructor
        · intro h; exact absurd h (by simp)
        · intro h
          rcases h with h | h
          · exact absurd h.symm hsh
          · exact absurd h h1

/- ### Claims C3 and C4: the Output-Mode Inferrer -/

/-- The trial evaluation result handed to `_find_output_mode_and_verify`: a
Python number (int/float) or a tensor. -/
inductive Eval where
  | num : ℚ → Eval
  | tensor : PTensor → Eval
deriving DecidableEq

/-- Lines 417-423: the aggregate-output-mode test — a plain number, a
0-dimensional tensor, or, when there is more than one example, a tensor with
exactly one element. -/
def aggOutputModeTest (initial_eval : Eval) (num_examples : Nat) : Bool :=
  match initial_eval with
  | Eval.num _ => true
  | Eval.tensor t =>
    decide (t.shape.length = 0) ||
      (decide (num_examples > 1) && decide (t.numel = 1))

/-- Lines 428-433: the sequential `single_mask.shape[0] == 1` checks over the
feature-mask tuple; reading `shape[0]` of a 0-dimensional mask raises. -/
def checkFeatureMasks : List PTensor → Except String Unit
  | [] => Except.ok ()
  | m :: rest =>
    match m.shape with
    | [] => Except.error "IndexError: tuple index out of range"
    | m0 :: _ =>
      if m0 = 1 then checkFeatureMasks rest
      else
        Except.error
          "Cannot provide different masks for each example when function returns a scalar."


/-- Lines 428-433: the feature-mask verification of the aggregate branch —
no mask passes, a supplied mask tuple passes iff every mask has leading
dimension 1. -/
def aggMaskVerify : Option (List PTensor) → Except String Bool
  | none => Except.ok true
  | some masks =>
    match checkFeatureMasks masks with
    | Except.error e => Except.error e
    | Except.ok _ => Except.ok true

/-- Lines 424-433: the aggregate branch — `perturbations_per_eval` must be 1,
then the feature-mask checks run, and `agg_output_mode = True` is returned. -/
def aggModeVerify (perturbations_per_eval : Nat)
    (feature_mask : Option (List PTensor)) : Except String Bool :=
  if perturbations_per_eval = 1 then aggMaskVerify feature_mask
  else
    Except.error
      "Cannot have perturbations_per_eval > 1 when function returns scalar."

/-- Lines 436-438 applied to the evaluation's shape: `initial_eval[0]` on a
0-dimensional or empty-batch tensor raises an index error, and otherwise the
first slice must hold exactly one element for `agg_output_mode = False` to be
returned. -/
def firstSliceVerify : List Nat → Except String Bool
  | [] => Except.error "IndexError: invalid index of a 0-dim tensor"
  | d0 :: rest =>
    if d0 = 0 then Except.error "IndexError: index 0 is out of bounds"
    else if rest.prod = 1 then Except.ok false
    else
      Except.error "Target should identify a single element in the model output."

/-- Lines 434-438: the per-example branch — the evaluation must be a tensor
(a plain number would fail the `isinstance` assertion) whose first slice
holds exactly one element. -/
def perExampleVerify : Eval → Except String Bool
  | Eval.num _ =>
    Except.error "Target should identify a single element in the model output."
  | Eval.tensor t => firstSliceVerify t.shape

/-- Lines 403-439, `_find_output_mode_and_verify`: decide whether the model
aggregates over the batch, then run the matching branch's verification. -/
def _find_output_mode_and_verify (initial_eval : Eval)
    (num_examples perturbations_per_eval : Nat)
    (feature_mask : Option (List PTensor)) : Except String Bool :=
  if aggOutputModeTest initial_eval num_examples then
    aggModeVerify perturbations_per_eval feature_mask
  else perExampleVerify initial_eval

/-- The aggregate-mode condition exactly as claim C3 states it (written from
the spec's words, for comparison with `aggOutputModeTest`). -/
def aggregateResultClaim (e : Eval) (n : Nat) : Prop :=
  (∃ v, e = Eval.num v) ∨
  (∃ t, e = Eval.tensor t ∧ (t.shape = [] ∨ (n > 1 ∧ t.numel = 1)))

/-- The code's aggregate test agrees with the claim's condition. -/
theorem aggOutputModeTest_iff (e : Eval) (n : Nat) :
    aggOutputModeTest e n = true ↔ aggregateResultClaim e n := by
  cases e with
  | num v => simp [aggOutputModeTest, aggregateResultClaim]
  | tensor t =>
    simp [aggOutputModeTest, aggregateResultClaim, List.length_eq_zero]

/-- Every success of the aggregate branch returns true. -/
theorem aggModeVerify_ok (ppe : Nat) (fm : Option (List PTensor)) (b : Bool)
    (h : aggModeVerify ppe fm = Except.ok b) : b = true := by
  unfold aggModeVerify at h
  by_cases hppe : ppe = 1
  · rw [if_pos hppe] at h
    match fm with
    | none => injection h with h; exact h.symm
    | some masks =>
      simp only [aggMaskVerify] at h
      rcases hck : checkFeatureMasks masks with msg | u
      · rw [hck] at h; exact absurd h (by simp)
      · rw [hck] at h; injection h with h; exact h.symm
  · rw [if_neg hppe] at h
    exact absurd h (by simp)

/-- Every success of the per-example branch returns false. -/
theorem perExampleVerify_ok (e : Eval) (b : Bool)
    (h : perExampleVerify e = Except.ok b) : b = false := by
  match e with
  | Eval.num v => exact absurd h (by simp [perExampleVerify])
  | Eval.tensor t =>
    simp only [perExampleVerify] at h
    rcases hsh : t.shape with _ | ⟨d0, rest⟩
    · rw [hsh] at h; exact absurd h (by simp [firstSliceVerify])
    · rw [hsh] at h
      simp only [firstSliceVerify] at h
      by_cases hd0 : d0 = 0
      · rw [if_pos hd0] at h; exact absurd h (by simp)
      · rw [if_neg hd0] at h
        by_cases hprod : rest.prod = 1
        · rw [if_pos hprod] at h; injection h with h; exact h.symm
        · rw [if_neg hprod] at h; exact absurd h (by simp)

/-- The per-example branch succeeds exactly on a tensor of nonempty batch
whose first slice holds one element. -/
theorem perExampleVerify_ok_false_iff (e : Eval) :
    perExampleVerify e = Except.ok false ↔
      ∃ t d0 rest, e = Eval.tensor t ∧ t.shape = d0 :: rest ∧
        0 < d0 ∧ rest.prod = 1 := by
  match e with
  | Eval.num v =>
    simp only [perExampleVerify]
    constructor
    · intro h; exact absurd h (by simp)
    · intro h
      rcases h with ⟨t, d0, rest, ht, _⟩
      exact absurd ht (by simp)
  | Eval.tensor t =>
    simp only [perExampleVerify]
    constructor
    · intro h
      rcases hsh : t.shape with _ | ⟨d0, rest⟩
      · rw [hsh] at h; exact absurd h (by simp [firstSliceVerify])
      · rw [hsh] at h
        simp only [firstSliceVerify] at h
        by_cases hd0 : d0 = 0
        · rw [if_pos hd0] at h; exact absurd h (by simp)
        · rw [if_neg hd0] at h
          by_cases hprod : rest.prod = 1
          · exact ⟨t, d0, rest, rfl, hsh, Nat.pos_of_ne_zero hd0, hprod⟩
          · rw [if_neg hprod] at h; exact absurd h (by simp)
    · intro h
      rcases h with ⟨t2, d0, rest, ht, hsh, hpos, hprod⟩
      have ht2 : t2 = t := by injection ht with h2; exact h2.symm
      rw [ht2] at hsh
      rw [hsh]
      simp only [firstSliceVerify]
      rw [if_neg (Nat.pos_iff_ne_zero.mp hpos), if_pos hprod]

/-- checkFeatureMasks succeeds exactly when every mask has leading dim 1. -/
theorem checkFeatureMasks_ok_iff (masks : List PTensor) :
    checkFeatureMasks masks = Except.ok () ↔
      ∀ m ∈ masks, m.shape.head? = some 1 := by
  induction masks with
  | nil => simp [checkFeatureMasks]
  | cons m rest ih =>
    rcases hm : m.shape with _ | ⟨m0, mtl⟩
    · simp only [checkFeatureMasks, hm]
      constructor
      · intro h; exact absurd h (by simp)
      · intro h
        have hmem := h m (by simp)
        rw [hm] at hmem
        exact absurd hmem (by simp)
    · simp only [checkFeatureMasks, hm]
      by_cases h1 : m0 = 1
      · subst h1
        rw [if_pos rfl, ih]
        constructor
        · intro h m2 hm2
          rcases List.mem_cons.mp hm2 with rfl | hm2
          · rw [hm]; rfl
          · exact h m2 hm2
        · intro h m2 hm2
          exact h m2 (List.mem_cons_of_mem _ hm2)
      · rw [if_neg h1]
        constructor
        · intro h; exact absurd h (by simp)
        · intro h
          have hmem := h m (by simp)
          rw [hm] at hmem
          simp only [List.head?_cons, Option.some.injEq] at hmem
          exact absurd hmem h1

/-- C3: the inferrer returns aggregate mode (true) exactly on a plain number,
a 0-dimensional tensor, or — with more than one example — a one-element
tensor; otherwise any successful run returns per-example mode (false), which
happens exactly when the first slice of the evaluation along dimension 0
holds exactly one element (anything else raises a fatal failure); and the
concrete scenario initial_eval = 0.37, num_examples = 5,
perturbations_per_eval = 1, no feature mask, yields true. -/
theorem find_output_mode_agg_iff (e : Eval) (n ppe : Nat)
    (fm : Option (List PTensor)) :
    (∀ b, _find_output_mode_and_verify e n ppe fm = Except.ok b →
      (b = true ↔ aggregateResultClaim e n)) ∧
    (¬ aggregateResultClaim e n →
      (_find_output_mode_and_verify e n ppe fm = Except.ok false ↔
        ∃ t d0 rest, e = Eval.tensor t ∧ t.shape = d0 :: rest ∧
          0 < d0 ∧ rest.prod = 1)) ∧
    _find_output_mode_and_verify (Eval.num (37/100)) 5 1 none =
      Except.ok true := by
  refine ⟨?_, ?_, rfl⟩
  · intro b hb
    unfold _find_output_mode_and_verify at hb
    by_cases hagg : aggOutputModeTest e n = true
    · rw [if_pos hagg] at hb
      have hb2 := aggModeVerify_ok ppe fm b hb
      have hclaim := (aggOutputModeTest_iff e n).mp hagg
      simp [hb2, hclaim]
    · rw [if_neg hagg] at hb
      have hb2 := perExampleVerify_ok e b hb
      have hclaim : ¬ aggregateResultClaim e n :=
        fun h => hagg ((aggOutputModeTest_iff e n).mpr h)
      simp [hb2, hclaim]
  · intro hnot
    have hagg : ¬ aggOutputModeTest e n = true :=
      fun h => hnot ((aggOutputModeTest_iff e n).mp h)
    unfold _find_output_mode_and_verify
    rw [if_neg hagg]
    exact perExampleVerify_ok_false_iff e

/-- Witness for C3 at a concrete per-example evaluation: a tensor of shape
(3, 1) with three examples returns per-example mode (false). -/
theorem find_output_mode_agg_iff_witness :
    false = true ↔ aggregateResultClaim (Eval.tensor ⟨[3, 1], [1, 2, 3]⟩) 3 :=
  (find_output_mode_agg_iff (Eval.tensor ⟨[3, 1], [1, 2, 3]⟩) 3 1 none).1
    false rfl

/-- C4: whenever the aggregate condition holds, the inferrer fails fatally if
perturbations_per_eval differs from 1, and with a supplied feature mask it
succeeds exactly when every mask tensor's leading (batch) dimension is 1; the
concrete aggregate scenario with perturbations_per_eval = 2 fails fatally. -/
theorem find_output_mode_agg_mode_checks (e : Eval) (n ppe : Nat)
    (fm : Option (List PTensor)) :
    (aggregateResultClaim e n →
      (ppe ≠ 1 →
        _find_output_mode_and_verify e n ppe fm =
          Except.error
            "Cannot have perturbations_per_eval > 1 when function returns scalar.") ∧
      (∀ masks, fm = some masks → ppe = 1 →
        (_find_output_mode_and_verify e n ppe fm = Except.ok true ↔
          ∀ m ∈ masks, m.shape.head? = some 1))) ∧
    _find_output_mode_and_verify (Eval.num (37/100)) 5 2 none =
      Except.error
        "Cannot have perturbations_per_eval > 1 when function returns scalar." := by
  refine ⟨?_, rfl⟩
  intro hclaim
  have hagg : aggOutputModeTest e n = true :=
    (aggOutputModeTest_iff e n).mpr hclaim
  unfold _find_output_mode_and_verify
  rw [if_pos hagg]
  constructor
  · intro hppe
    unfold aggModeVerify
    rw [if_neg hppe]
  · intro masks hfm hppe
    subst hfm
    unfold aggModeVerify
    rw [if_pos hppe]
    simp only [aggMaskVerify]
    rcases hck : checkFeatureMasks masks with msg | u
    · constructor
      · intro h; exact Except.noConfusion h
      · intro h
        have hok := (checkFeatureMasks_ok_iff masks).mpr h
        rw [hck] at hok
        exact absurd hok (by simp)
    · constructor
      · intro _
        cases u
        exact (checkFeatureMasks_ok_iff masks).mp hck
      · intro _; rfl

/-- Witness for C4 at a concrete aggregate scenario with a feature mask: the
number 0.37 with a single-batch mask succeeds, and the mask rule is the
leading-dimension-1 condition. -/
theorem find_output_mode_agg_mode_checks_witness :
    _find_output_mode_and_verify (Eval.num (37/100)) 5 1
        (some [⟨[1, 4], [1, 2, 3, 4]⟩]) = Except.ok true ↔
      ∀ m ∈ [(⟨[1, 4], [1, 2, 3, 4]⟩ : PTensor)], m.shape.head? = some 1 :=
  ((find_output_mode_agg_mode_checks (Eval.num (37/100)) 5 1
      (some [⟨[1, 4], [1, 2, 3, 4]⟩])).1 (Or.inl ⟨37/100, rfl⟩)).2
    [⟨[1, 4], [1, 2, 3, 4]⟩] rfl rfl

/- ### Claim C7: callable baseline invocation -/

/-- A Python callable baseline: its declared parameter count and its
behaviour.  `call none` is the zero-argument invocation `baselines()`;
`call (some x)` is the one-argument invocation `baselines(x)`, where `x` is
whatever the caller passed as `inputs` — a bare tensor or a tuple. -/
structure PyBaselineFn where
  arity : Nat
  call : Option (PTensor ⊕ List PTensor) → BaselinesArg

/-- Modelled from the spec: `_format_input` (imported from
`captum._utils.common`, not part of this file) promotes a bare tensor to a
length-1 tuple and leaves a tuple unchanged. -/
def _format_input : PTensor ⊕ List PTensor → List PTensor
  | Sum.inl t => [t]
  | Sum.inr ts => ts

/-- The `baselines` argument of `_format_callable_baseline`: either a
non-callable baselines value or a callable. -/
inductive CallableBaselines where
  | direct : BaselinesArg → CallableBaselines
  | callable : PyBaselineFn → CallableBaselines

/-- Lines 166-187, `_format_callable_baseline`: a callable with zero declared
parameters is called with no arguments, one with one or more parameters is
called with `inputs` exactly as supplied (the raw argument, line 185); the
result — or a non-callable `baselines` — is then formatted by
`_format_baseline` against the formatted inputs. -/
def _format_callable_baseline (baselines : CallableBaselines)
    (inputs : PTensor ⊕ List PTensor) : List Baseline :=
  match baselines with
  | CallableBaselines.direct b => _format_baseline b (_format_input inputs)
  | CallableBaselines.callable c =>
    _format_baseline (if c.arity = 0 then c.call none else c.call (some inputs))
      (_format_input inputs)

/-- The invocation rule exactly as claim C7 states it (for comparison with
`_format_callable_baseline`): a callable with one or more declared parameters
receives the formatted InputSet — the tuple-promoted inputs — as its single
argument. -/
def format_callable_baseline_claim (baselines : CallableBaselines)
    (inputs : PTensor ⊕ List PTensor) : List Baseline :=
  match baselines with
  | CallableBaselines.direct b => _format_baseline b (_format_input inputs)
  | CallableBaselines.callable c =>
    _format_baseline
      (if c.arity = 0 then c.call none
        else c.call (some (Sum.inr (_format_input inputs))))
      (_format_input inputs)

/-- A probe callable that records the shape of its argument: it returns the
scalar 1 on a bare tensor argument, 2 on a tuple argument, 3 when called with
no arguments. -/
def probeBaselineFn : PyBaselineFn where
  arity := 1
  call := fun a =>
    match a with
    | some (Sum.inl _) => some (Sum.inl (Baseline.scalar 1))
    | some (Sum.inr _) => some (Sum.inl (Baseline.scalar 2))
    | none => some (Sum.inl (Baseline.scalar 3))

/-- C7 counterexample: with a bare tensor input, the code calls an
arity-ge-1 callable with the raw bare tensor (probe answers 1), not with the
formatted length-1 tuple as the claim states (probe would answer 2). -/
theorem format_callable_baseline_counterexample :
    _format_callable_baseline (CallableBaselines.callable probeBaselineFn)
        (Sum.inl ⟨[2], [5, 6]⟩) = [Baseline.scalar 1] ∧
    format_callable_baseline_claim (CallableBaselines.callable probeBaselineFn)
        (Sum.inl ⟨[2], [5, 6]⟩) = [Baseline.scalar 2] ∧
    [Baseline.scalar 1] ≠ [Baseline.scalar 2] := by
  refine ⟨rfl, rfl, by decide⟩

/-- C7 amended: a callable with zero declared parameters is called with no
arguments; one with one or more parameters is called with the inputs exactly
as the caller supplied them (not tuple-promoted) as its single argument; the
returned value is then formatted through `_format_baseline` against the
formatted inputs. -/
theorem format_callable_baseline_invocation (c : PyBaselineFn)
    (inputs : PTensor ⊕ List PTensor) :
    (c.arity = 0 →
      _format_callable_baseline (CallableBaselines.callable c) inputs =
        _format_baseline (c.call none) (_format_input inputs)) ∧
    (c.arity ≠ 0 →
      _format_callable_baseline (CallableBaselines.callable c) inputs =
        _format_baseline (c.call (some inputs)) (_format_input inputs)) := by
  constructor
  · intro h
    simp only [_format_callable_baseline, if_pos h]
  · intro h
    simp only [_format_callable_baseline, if_neg h]

/-- Witness for C7 amended: the probe callable (arity 1) applied to a bare
tensor input is invoked on the raw bare tensor. -/
theorem format_callable_baseline_invocation_witness :
    _format_callable_baseline (CallableBaselines.callable probeBaselineFn)
        (Sum.inl ⟨[2], [5, 6]⟩) =
      _format_baseline (probeBaselineFn.call (some (Sum.inl ⟨[2], [5, 6]⟩)))
        (_format_input (Sum.inl ⟨[2], [5, 6]⟩)) :=
  (format_callable_baseline_invocation probeBaselineFn
      (Sum.inl ⟨[2], [5, 6]⟩)).2 (by decide)

/- ### Claim C8: the Custom-Function Dispatcher -/

/-- A caller-supplied custom attribution function: its declared parameter
count and its behaviour on the list of arguments it is called with. -/
structure CustomAttrFn where
  arity : Nat
  call : List (List PTensor) → List PTensor

/-- Lines 377-400, `_call_custom_attribution_func`: dispatch on the declared
parameter count — arity 1, 2 and 3 are called with the matching leading
arguments in the fixed order multipliers, inputs, baselines; any other arity
raises an `AssertionError` with a fixed message.  The `callable` assertion is
vacuous here because the embedding is typed. -/
def _call_custom_attribution_func (custom_attribution_func : CustomAttrFn)
    (multipliers inputs baselines : List PTensor) :
    Except String (List PTensor) :=
  if custom_attribution_func.arity = 1 then
    Except.ok (custom_attribution_func.call [multipliers])
  else if custom_attribution_func.arity = 2 then
    Except.ok (custom_attribution_func.call [multipliers, inputs])
  else if custom_attribution_func.arity = 3 then
    Except.ok (custom_attribution_func.call [multipliers, inputs, baselines])
  else
    Except.error
      "custom_attribution_func must take at least one and at most 3 arguments."

set_option maxRecDepth 4000 in
/-- C8 counterexample: for declared arity 4 the dispatcher raises the fixed
message, which does not name the offending parameter count — the character
list of the digit 4 does not occur in it. -/
theorem call_custom_attribution_func_counterexample :
    _call_custom_attribution_func ⟨4, fun _ => []⟩ [] [] [] =
      Except.error
        "custom_attribution_func must take at least one and at most 3 arguments." ∧
    ¬ (List.IsInfix (toString (4 : Nat)).data
        "custom_attribution_func must take at least one and at most 3 arguments.".data) := by
  refine ⟨rfl, by decide⟩

/-- C8 amended: arity 1, 2, 3 is called with exactly (multipliers),
(multipliers, inputs), (multipliers, inputs, baselines) respectively, and any
other declared arity — 0 or more than 3 — raises a fatal failure with a
fixed message that does not include the offending count. -/
theorem call_custom_attribution_func_dispatch (f : CustomAttrFn)
    (m x b : List PTensor) :
    (f.arity = 1 →
      _call_custom_attribution_func f m x b = Except.ok (f.call [m])) ∧
    (f.arity = 2 →
      _call_custom_attribution_func f m x b = Except.ok (f.call [m, x])) ∧
    (f.arity = 3 →
      _call_custom_attribution_func f m x b = Except.ok (f.call [m, x, b])) ∧
    (f.arity = 0 ∨ 3 < f.arity →
      _call_custom_attribution_func f m x b =
        Except.error
          "custom_attribution_func must take at least one and at most 3 arguments.") := by
  refine ⟨?_, ?_, ?_, ?_⟩
  · intro h; simp only [_call_custom_attribution_func, if_pos h]
  · intro h
    simp only [_call_custom_attribution_func, h]
    rfl
  · intro h
    simp only [_call_custom_attribution_func, h]
    rfl
  · intro h
    have h1 : f.arity ≠ 1 := by rcases h with h | h <;> omega
    have h2 : f.arity ≠ 2 := by rcases h with h | h <;> omega
    have h3 : f.arity ≠ 3 := by rcases h with h | h <;> omega
    simp only [_call_custom_attribution_func, if_neg h1, if_neg h2, if_neg h3]

/-- Witness for C8 amended at the spec's concrete scenario: an arity-2
function with singleton multipliers, inputs and baselines is called as
f(m, x), ignoring baselines. -/
theorem call_custom_attribution_func_dispatch_witness :
    _call_custom_attribution_func ⟨2, fun args => args.flatten⟩
        [⟨[1], [1]⟩] [⟨[1], [2]⟩] [⟨[1], [3]⟩] =
      Except.ok ((⟨2, fun args => args.flatten⟩ : CustomAttrFn).call
        [[⟨[1], [1]⟩], [⟨[1], [2]⟩]]) :=
  (call_custom_attribution_func_dispatch ⟨2, fun args => args.flatten⟩
      [⟨[1], [1]⟩] [⟨[1], [2]⟩] [⟨[1], [3]⟩]).2.1 rfl

/- ### Claim C2: the Integration Aggregator -/

/-- torch `Tensor.reshape`: valid exactly when the new shape's element count
matches the tensor's `numel`; the row-major flat data is unchanged. -/
def PTensor.reshape (t : PTensor) (newShape : List Nat) :
    Except String PTensor :=
  if newShape.prod = t.numel then
    Except.ok { shape := newShape, data := t.data }
  else Except.error "RuntimeError: shape is invalid for input size"

/-- torch `torch.sum(x, dim=0)` on a tensor of shape `d0 :: rest`: the output
has shape `rest` and its row-major entry `k` is the sum over `i < d0` of the
flat entry at `i * rest.prod + k`. -/
def PTensor.sumDim0 (t : PTensor) : Except String PTensor :=
  match t.shape with
  | [] => Except.error "IndexError: Dimension out of range"
  | d0 :: rest =>
    Except.ok { shape := rest,
                data := (List.range rest.prod).map fun k =>
                  ((List.range d0).map fun i =>
                    t.data.getD (i * rest.prod + k) 0).sum }

/-- Lines 365-374, `_reshape_and_sum`: reshape the flat per-step tensor to
`(num_steps, num_examples, *layer_size)` and sum over dimension 0. -/
def _reshape_and_sum (tensor_input : PTensor) (num_steps num_examples : Nat)
    (layer_size : List Nat) : Except String PTensor :=
  match tensor_input.reshape (num_steps :: num_examples :: layer_size) with
  | Except.error e => Except.error e
  | Except.ok t => t.sumDim0

/-- Indexing the flattening of uniformly sized chunks: entry `i * m + j`
of the flattened list is entry `j` of chunk `i`. -/
theorem getD_flatten_uniform {α : Type} (d : α) (m : Nat) :
    ∀ (ll : List (List α)) (i j : Nat), (∀ l ∈ ll, l.length = m) →
      i < ll.length → j < m →
      ll.flatten.getD (i * m + j) d = (ll.getD i []).getD j d := by
  intro ll
  induction ll with
  | nil =>
    intro i j _ hi _
    exact absurd hi (by simp)
  | cons a tl ih =>
    intro i j hlen hi hj
    have ha : a.length = m := hlen a (by simp)
    match i with
    | 0 =>
      rw [Nat.zero_mul, Nat.zero_add, List.flatten_cons,
        List.getD_append _ _ _ _ (by rw [ha]; exact hj)]
      rfl
    | Nat.succ k =>
      have hm : Nat.succ k * m = k * m + m := Nat.succ_mul k m
      rw [List.flatten_cons, List.getD_append_right _ _ _ _ (by rw [ha]; omega)]
      have hidx : Nat.succ k * m + j - a.length = k * m + j := by
        rw [ha]; omega
      rw [hidx,
        ih k j (fun l hl => hlen l (List.mem_cons_of_mem _ hl))
          (by simpa using hi) hj]
      rfl

/-- Mapping an index-based access over the full range of a list is mapping
over the list itself. -/
theorem range_map_getD {α β : Type} (g : α → β) (d : α) :
    ∀ l : List α,
      (List.range l.length).map (fun i => g (l.getD i d)) = l.map g := by
  intro l
  induction l with
  | nil => rfl
  | cons a tl ih =>
    rw [List.length_cons, List.range_succ_eq_map, List.map_cons,
      List.map_map]
    rw [List.getD_cons_zero]
    have : ((fun i => g ((a :: tl).getD i d)) ∘ Nat.succ) =
        fun i => g (tl.getD i d) := by
      funext i
      simp [List.getD_cons_succ]
    rw [this, ih, List.map_cons]

/-- C2: for a flat tensor formed by stacking `num_steps` blocks of
`num_examples` rows, each row a feature tensor of shape `layer_size`, the
Integration Aggregator returns a tensor of shape
`(num_examples, *layer_size)` whose entries are the elementwise sums across
the `num_steps` blocks. -/
theorem reshape_and_sum_sums_blocks (num_steps num_examples : Nat)
    (layer_size : List Nat) (blocks : List (List (List ℚ)))
    (hsteps : blocks.length = num_steps)
    (hblocks : ∀ blk ∈ blocks, blk.length = num_examples ∧
      ∀ r ∈ blk, r.length = layer_size.prod) :
    ∃ out, _reshape_and_sum
        ⟨(num_steps * num_examples) :: layer_size, blocks.flatten.flatten⟩
        num_steps num_examples layer_size = Except.ok out ∧
      out.shape = num_examples :: layer_size ∧
      out.data.length = num_examples * layer_size.prod ∧
      ∀ e, e < num_examples → ∀ j, j < layer_size.prod →
        out.data.getD (e * layer_size.prod + j) 0 =
          (blocks.map fun blk => (blk.getD e []).getD j 0).sum := by
  have hnumel : (num_steps :: num_examples :: layer_size).prod =
      (PTensor.mk ((num_steps * num_examples) :: layer_size)
        blocks.flatten.flatten).numel := by
    simp [PTensor.numel, List.prod_cons, Nat.mul_assoc]
  have hres : (PTensor.mk ((num_steps * num_examples) :: layer_size)
        blocks.flatten.flatten).reshape
        (num_steps :: num_examples :: layer_size) =
      Except.ok
        ⟨num_steps :: num_examples :: layer_size, blocks.flatten.flatten⟩ := by
    unfold PTensor.reshape
    rw [if_pos hnumel]
  have hmain : _reshape_and_sum
      ⟨(num_steps * num_examples) :: layer_size, blocks.flatten.flatten⟩
      num_steps num_examples layer_size =
      (PTensor.mk (num_steps :: num_examples :: layer_size)
        blocks.flatten.flatten).sumDim0 := by
    unfold _reshape_and_sum
    rw [hres]
  have hsum : (PTensor.mk (num_steps :: num_examples :: layer_size)
      blocks.flatten.flatten).sumDim0 =
      Except.ok ⟨num_examples :: layer_size,
        (List.range ((num_examples :: layer_size).prod)).map fun k =>
          ((List.range num_steps).map fun i =>
            blocks.flatten.flatten.getD
              (i * (num_examples :: layer_size).prod + k) 0).sum⟩ := rfl
  have hB : (num_examples :: layer_size).prod =
      num_examples * layer_size.prod := List.prod_cons
  refine ⟨_, hmain.trans hsum, rfl, ?_, ?_⟩
  · simp [hB]
  · intro e he j hj
    have hrows : ∀ r ∈ blocks.flatten, r.length = layer_size.prod := by
      intro r hr
      rcases List.mem_flatten.mp hr with ⟨blk, hblk, hrblk⟩
      exact (hblocks blk hblk).2 r hrblk
    have hlenflat : blocks.flatten.length = num_steps * num_examples := by
      rw [List.length_flatten]
      have hrepl : blocks.map List.length =
          List.replicate num_steps num_examples := by
        refine List.eq_replicate_iff.mpr ⟨by simp [hsteps], ?_⟩
        intro b hb
        rcases List.mem_map.mp hb with ⟨blk, hblk, rfl⟩
        exact (hblocks blk hblk).1
      rw [hrepl, List.sum_replicate, smul_eq_mul]
    have hk0 : e * layer_size.prod + j <
        ((num_examples :: layer_size).prod) := by
      rw [hB]
      have h1 : e * layer_size.prod + j < (e + 1) * layer_size.prod := by
        rw [Nat.succ_mul]; omega
      exact lt_of_lt_of_le h1 (Nat.mul_le_mul_right _ (by omega))
    have hlen : ((List.range ((num_examples :: layer_size).prod)).map fun k =>
        ((List.range num_steps).map fun i =>
          blocks.flatten.flatten.getD
            (i * (num_examples :: layer_size).prod + k) 0).sum).length =
        (num_examples :: layer_size).prod := by
      simp
    rw [List.getD_eq_getElem _ _ (by rw [hlen]; exact hk0)]
    rw [List.getElem_map, List.getElem_range]
    have hterm : ∀ i ∈ List.range num_steps,
        blocks.flatten.flatten.getD
          (i * (num_examples :: layer_size).prod +
            (e * layer_size.prod + j)) 0 =
          ((blocks.getD i []).getD e []).getD j 0 := by
      intro i hi
      have hi2 : i < num_steps := List.mem_range.mp hi
      have hidx : i * (num_examples :: layer_size).prod +
          (e * layer_size.prod + j) =
          (i * num_examples + e) * layer_size.prod + j := by
        rw [hB]; ring
      rw [hidx]
      have hie : i * num_examples + e < num_steps * num_examples := by
        have h1 : i * num_examples + e < (i + 1) * num_examples := by
          rw [Nat.succ_mul]; omega
        exact lt_of_lt_of_le h1 (Nat.mul_le_mul_right _ (by omega))
      rw [getD_flatten_uniform 0 layer_size.prod blocks.flatten
        (i * num_examples + e) j hrows (by rw [hlenflat]; exact hie) hj]
      have houter := getD_flatten_uniform ([] : List ℚ) num_examples blocks
        i e (fun blk hblk => (hblocks blk hblk).1)
        (by rw [hsteps]; exact hi2) he
      rw [houter]
    rw [List.map_congr_left hterm]
    have hrange : List.range num_steps = List.range blocks.length := by
      rw [hsteps]
    rw [hrange,
      range_map_getD (fun blk => (blk.getD e ([] : List ℚ)).getD j 0)
        ([] : List (List ℚ)) blocks]

/-- The spec's concrete aggregation scenario: 3 integration steps, 2
examples, feature shape (4,). -/
def blocksC2 : List (List (List ℚ)) :=
  [[[1, 2, 3, 4], [5, 6, 7, 8]],
   [[9, 10, 11, 12], [13, 14, 15, 16]],
   [[17, 18, 19, 20], [21, 22, 23, 24]]]

/-- Witness for C2 at the spec's concrete scenario (steps = 3, examples = 2,
feature shape (4,)). -/
theorem reshape_and_sum_sums_blocks_witness :
    ∃ out, _reshape_and_sum
        ⟨(3 * 2) :: [4], blocksC2.flatten.flatten⟩ 3 2 [4] =
        Except.ok out ∧
      out.shape = 2 :: [4] ∧
      out.data.length = 2 * List.prod [4] ∧
      ∀ e, e < 2 → ∀ j, j < List.prod [4] →
        out.data.getD (e * List.prod [4] + j) 0 =
          (blocksC2.map fun blk => (blk.getD e []).getD j 0).sum :=
  reshape_and_sum_sums_blocks 3 2 [4] blocksC2 rfl (by decide)

/-- The hand-computed sums of the concrete scenario: summing the three
blocks elementwise gives (27, 30, 33, 36) for the first example and
(39, 42, 45, 48) for the second. -/
theorem reshape_and_sum_concrete_eval :
    _reshape_and_sum ⟨[6, 4], blocksC2.flatten.flatten⟩ 3 2 [4] =
      Except.ok ⟨[2, 4], [27, 30, 33, 36, 39, 42, 45, 48]⟩ := by
  have h8 : List.range 8 = [0, 1, 2, 3, 4, 5, 6, 7] := by decide
  have h3 : List.range 3 = [0, 1, 2] := by decide
  norm_num [_reshape_and_sum, PTensor.reshape, PTensor.numel, PTensor.sumDim0,
    h8, h3, blocksC2]
